import Mathlib

/-!
Verification of the geometry-to-renderable pipeline in export_mu/mesh.py.

Floating-point values are modelled as exact rationals; Blender/mathutils
objects are modelled as explicit Lean structures; Python attribute stores are
modelled as association lists; fallible Python code is modelled in
`Except String`.
-/

/-- A UV coordinate pair (mathutils 2D vector components, modelled as exact
rationals). -/
abbrev UV := ℚ × ℚ

/-- The per-corner tuple of UV coordinates, one entry per present UV layer
(0 to 2 layers): `tuple(map(lambda l: tuple(l[k]), uv))` in `split_face`. -/
abbrev UVTuple := List UV

/-- The identity of a split vertex as built by `split_face`:
`(fv[k], tuple(map(lambda l: tuple(l[k]), uv)))` — the source vertex index
paired with the tuple of UV coordinates at that corner. -/
abbrev CornerKey := Nat × UVTuple

/-- A corner-key triangle, one element of the list returned by `split_face`. -/
abbrev FTri := CornerKey × CornerKey × CornerKey

/-- A 3D vector (mathutils `Vector` / `tuple(mv.co)`), components modelled as
exact rationals. -/
structure Vec3 where
  x : ℚ
  y : ℚ
  z : ℚ
deriving DecidableEq, Repr

def zero3 : Vec3 := ⟨0, 0, 0⟩

def add3 (a b : Vec3) : Vec3 := ⟨a.x + b.x, a.y + b.y, a.z + b.z⟩

def sub3 (a b : Vec3) : Vec3 := ⟨a.x - b.x, a.y - b.y, a.z - b.z⟩

def smul3 (c : ℚ) (a : Vec3) : Vec3 := ⟨c * a.x, c * a.y, c * a.z⟩

def dot3 (a b : Vec3) : ℚ := a.x * b.x + a.y * b.y + a.z * b.z

/-- One entry of a Blender vertex group membership list
(`bpy.types.MeshVertex.groups` element: `.group` index and `.weight`). -/
structure MDeformWeight where
  group : Nat
  weight : ℚ
deriving DecidableEq, Repr

/-- A Blender mesh vertex as read by `make_verts`: `mv.co`, `mv.normal`,
`mv.groups`. -/
structure MeshVertex where
  co : Vec3
  normal : Vec3
  groups : List MDeformWeight
deriving DecidableEq, Repr

/-- A Blender polygon as read by `split_face`: `loop_start`, `loop_total`
and the list `face.vertices` of mesh-vertex indices in winding order. -/
structure BPoly where
  loop_start : Nat
  loop_total : Nat
  vertices : List Nat
deriving DecidableEq, Repr

/-- The custom material property block: `mat.mumatprop.shaderName`. -/
structure MuMatProp where
  shaderName : String
deriving DecidableEq, Repr

/-- A Blender material slot entry as read by `mesh_materials`. -/
structure BMaterial where
  name : String
  mumatprop : MuMatProp
deriving DecidableEq, Repr

/-- The Blender mesh data consumed by the pipeline: `mesh.polygons`,
`mesh.uv_layers` (each layer is its per-loop `.data` array of UVs, the slice
`layer.data[s:e]` being taken inside `split_face`), `mesh.vertices`, and
`mesh.materials`. -/
structure BMesh where
  polygons : List BPoly
  uv_layers : List (List UV)
  vertices : List MeshVertex
  materials : List BMaterial
deriving DecidableEq, Repr

/-- Model of `face = mesh.polygons[index]` in `split_face`.  Out-of-range access is a
caller contract violation; we total it with a default empty polygon. -/
def faceOf (mesh : BMesh) (index : Nat) : BPoly :=
  mesh.polygons.getD index ⟨0, 0, []⟩

/-- The `uv` local of `split_face`: up to two UV layers (`mesh.uv_layers[:2]`),
each restricted to the loop range of this face (`layer.data[s:e]`). -/
def faceUV (mesh : BMesh) (index : Nat) : List (List UV) :=
  (mesh.uv_layers.take 2).map
    (fun layer => (layer.drop (faceOf mesh index).loop_start).take (faceOf mesh index).loop_total)

/-- The corner key built for corner `k` of a face:
`(fv[k], tuple(map(lambda l: tuple(l[k]), uv)))`.  Blender guarantees the UV
layer slices are index-aligned with `fv`; out-of-range reads are totalled with
defaults. -/
def faceCorner (fv : List Nat) (uv : List (List UV)) (k : Nat) : CornerKey :=
  (fv.getD k 0, uv.map (fun l => l.getD k (0, 0)))

/-- Model of `split_face(mesh, index)`: fan triangulation of one polygon.  The source
loop `for i in range(1, len(fv) - 1)` appends, for each `i`, the triangle of
corner keys at corners `0`, `i`, `i+1`; `range(1, len(fv)-1)` is exactly
`List.range' 1 (fv.length - 2)`. -/
def split_face (mesh : BMesh) (index : Nat) : List FTri :=
  let fv := (faceOf mesh index).vertices
  let uv := faceUV mesh index
  (List.range' 1 (fv.length - 2)).map
    (fun i => (faceCorner fv uv 0, faceCorner fv uv i, faceCorner fv uv (i + 1)))

/-- Model of `build_submeshes(mesh)`: a single submesh listing every polygon index in
order. -/
def build_submeshes (mesh : BMesh) : List (List Nat) :=
  [List.range mesh.polygons.length]

/-- Model of `make_tris(mesh, submeshes)`: each face index of each submesh is replaced,
in place, by the triangles `split_face` produces for it (the splice
`sm[i:i+1] = tris; i += len(tris)` substitutes the triangle list for the face
entry and moves past it, i.e. the submesh becomes the in-order concatenation
of the per-face triangle lists). -/
def make_tris (mesh : BMesh) (submeshes : List (List Nat)) : List (List FTri) :=
  submeshes.map (fun sm => sm.flatMap (fun i => split_face mesh i))

/-- The `vuvdict` local of `make_verts`: a Python dict from corner key to
assigned vertex index, modelled as an association list (insertions prepend;
lookup takes the first hit, and keys are only inserted when absent). -/
abbrev KDict := List (CornerKey × Nat)

/-- Dict lookup: `vuvdict[vuv]` / `vuv in vuvdict`. -/
def dget (d : KDict) (k : CornerKey) : Option Nat :=
  match d with
  | [] => none
  | (k1, n) :: d => if k1 = k then some n else dget d k

/-- The four parallel output lists of `make_verts`: `verts`, `normals`, `uvs`,
`groups`. -/
structure VertData where
  verts : List Vec3
  normals : List Vec3
  uvs : List UVTuple
  groups : List (List MDeformWeight)
deriving DecidableEq, Repr

/-- Model of `mesh.vertices[i]` as read in `make_verts`; polygon vertex indices are
valid mesh-vertex indices by the Blender contract (§6), so the default is
never consulted by the pipeline. -/
def meshVertex (mesh : BMesh) (i : Nat) : MeshVertex :=
  mesh.vertices.getD i ⟨zero3, zero3, []⟩

/-- Processing of one corner `vuv` of a triangle in `make_verts`:
if the key is unseen, bind it to `len(verts)` and append, for this vertex, the
position, normal, UV tuple and group memberships; then look the key up for
the rewritten triangle (`tv.append(vuvdict[vuv])`). -/
def doCorner (mesh : BMesh) (s : VertData × KDict) (vuv : CornerKey) :
    (VertData × KDict) × Nat :=
  match dget s.2 vuv with
  | some n => (s, n)
  | none =>
      let mv := meshVertex mesh vuv.1
      let n := s.1.verts.length
      ((⟨s.1.verts ++ [mv.co], s.1.normals ++ [mv.normal],
         s.1.uvs ++ [vuv.2], s.1.groups ++ [mv.groups]⟩,
        (vuv, n) :: s.2), n)

/-- Processing of a flat list of corners (the corner-level view of the
triangle loop; `doTris` below is shown equal to it). -/
def doCorners (mesh : BMesh) (s : VertData × KDict) (ks : List CornerKey) :
    (VertData × KDict) × List Nat :=
  match ks with
  | [] => (s, [])
  | k :: ks =>
      let sn := doCorner mesh s k
      let rest := doCorners mesh sn.1 ks
      (rest.1, sn.2 :: rest.2)

/-- Model of `for vuv in ft: ... tv.append(vuvdict[vuv])` — one triangle becomes the
list `tv` of its three rewritten indices. -/
def doTri (mesh : BMesh) (s : VertData × KDict) (ft : FTri) :
    (VertData × KDict) × List Nat :=
  let s1 := doCorner mesh s ft.1
  let s2 := doCorner mesh s1.1 ft.2.1
  let s3 := doCorner mesh s2.1 ft.2.2
  (s3.1, [s1.2, s2.2, s3.2])

/-- The triangle loop `for i, ft in enumerate(sm): ... sm[i] = tv` of
`make_verts` over one submesh. -/
def doTris (mesh : BMesh) (s : VertData × KDict) (tris : List FTri) :
    (VertData × KDict) × List (List Nat) :=
  match tris with
  | [] => (s, [])
  | t :: ts =>
      let st := doTri mesh s t
      let rest := doTris mesh st.1 ts
      (rest.1, st.2 :: rest.2)

/-- The submesh loop of `make_verts`: NOTE the fresh `vuvdict = {}` at the head
of each submesh iteration — the corner-key dictionary is scoped to one submesh,
while the four output lists are shared across all submeshes. -/
def doSubmeshes (mesh : BMesh) (vd : VertData) (sms : List (List FTri)) :
    VertData × List (List (List Nat)) :=
  match sms with
  | [] => (vd, [])
  | sm :: rest =>
      let r := doTris mesh (vd, []) sm
      let r2 := doSubmeshes mesh r.1.1 rest
      (r2.1, r.2 :: r2.2)

/-- Model of `make_verts(mesh, submeshes)`: returns the four parallel vertex-stream
lists and the submeshes rewritten to deduplicated vertex indices. -/
def make_verts (mesh : BMesh) (submeshes : List (List FTri)) :
    VertData × List (List (List Nat)) :=
  doSubmeshes mesh ⟨[], [], [], []⟩ submeshes

/-- The flat list of corner keys of a submesh, in processing order. -/
def allCorners (tris : List FTri) : List CornerKey :=
  tris.flatMap (fun t => [t.1, t.2.1, t.2.2])

/-- The quad scenario of §8: vertices 0,1,2,3, one UV layer with 4 distinct
corner UVs. -/
def cMeshQ : BMesh :=
  ⟨[⟨0, 4, [0, 1, 2, 3]⟩],
   [[(0, 0), (1, 0), (1, 1), (0, 1)]],
   [⟨⟨0, 0, 0⟩, ⟨0, 0, 1⟩, []⟩, ⟨⟨1, 0, 0⟩, ⟨0, 0, 1⟩, []⟩,
    ⟨⟨1, 1, 0⟩, ⟨0, 0, 1⟩, []⟩, ⟨⟨0, 1, 0⟩, ⟨0, 0, 1⟩, []⟩],
   []⟩

/-- Working invariant: every index bound in the corner dictionary is a valid
index into the current vertex stream. -/
def dictOk (s : VertData × KDict) : Prop :=
  ∀ k n, dget s.2 k = some n → n < s.1.verts.length

/-- The corner dictionary never binds two distinct keys to the same index. -/
def dictInj (d : KDict) : Prop :=
  ∀ k1 k2 n, dget d k1 = some n → dget d k2 = some n → k1 = k2

/-- Number of corner keys of `ks` that are new relative to dictionary `d`
(each distinct new key counted once) — the number of vertex-stream rows the
corner loop appends. -/
def countNew (d : KDict) (ks : List CornerKey) : Nat :=
  match ks with
  | [] => 0
  | k :: ks =>
      match dget d k with
      | some _ => countNew d ks
      | none => countNew ((k, 0) :: d) ks + 1

/-- The set of keys bound in the dictionary. -/
def dkeys (d : KDict) : Finset CornerKey :=
  (d.map Prod.fst).toFinset

/-- The four parallel lists of a `VertData` have equal lengths. -/
def balanced (vd : VertData) : Prop :=
  vd.normals.length = vd.verts.length ∧ vd.uvs.length = vd.verts.length ∧
    vd.groups.length = vd.verts.length

/-- A three-vertex mesh used for concrete checks (no UV layers). -/
def cMesh3 : BMesh :=
  ⟨[⟨0, 3, [0, 1, 2]⟩], [],
   [⟨⟨0, 0, 0⟩, ⟨0, 0, 1⟩, []⟩, ⟨⟨1, 0, 0⟩, ⟨0, 0, 1⟩, []⟩, ⟨⟨0, 1, 0⟩, ⟨0, 0, 1⟩, []⟩],
   []⟩

/-- A corner-key triangle over `cMesh3` with three distinct corner keys. -/
def ctri3 : FTri := ((0, []), (1, []), (2, []))

/-- A corner-key triangle whose first and last corners carry the same key. -/
def ctriW : FTri := ((0, []), (1, []), (0, []))

/-- A 4-component tangent entry `tuple(t) + (hand,)` of `make_tangents`. -/
structure Tan4 where
  x : ℚ
  y : ℚ
  z : ℚ
  hand : ℚ
deriving DecidableEq, Repr

/-- The mutable state of `make_tangents`.  The source builds
`sdir = [Vector()] * len(verts)` and `tdir = [Vector()] * len(verts)`: each
line evaluates `Vector()` ONCE and replicates a reference to that single
object, and mathutils vectors implement the in-place operators (`+=`, `-=`,
`normalize()`), which mutate the referenced object.  We model the object
identity explicitly: `store` holds the allocated Vector objects, and
`sdir`/`tdir` hold one store reference per vertex index. -/
structure TanSt where
  store : List Vec3
  sdir : List Nat
  tdir : List Nat
deriving DecidableEq, Repr

/-- Model of `sdir = [Vector()] * len(verts); tdir = [Vector()] * len(verts)`:
two zero vectors are allocated; every cell of `sdir` references object 0 and
every cell of `tdir` references object 1. -/
def tanInit (n : Nat) : TanSt :=
  ⟨[zero3, zero3], List.replicate n 0, List.replicate n 1⟩

/-- Dereference a store object. -/
def readObj (store : List Vec3) (r : Nat) : Vec3 :=
  store.getD r zero3

/-- The value observed when reading `sdir[i]`. -/
def sdirVal (st : TanSt) (i : Nat) : Vec3 :=
  readObj st.store (st.sdir.getD i 0)

/-- The value observed when reading `tdir[i]`. -/
def tdirVal (st : TanSt) (i : Nat) : Vec3 :=
  readObj st.store (st.tdir.getD i 1)

/-- Model of `sdir[i] += v`: mutates, in place, the object referenced by cell `i`. -/
def iaddS (st : TanSt) (i : Nat) (v : Vec3) : TanSt :=
  let r := st.sdir.getD i 0
  ⟨st.store.set r (add3 (readObj st.store r) v), st.sdir, st.tdir⟩

/-- Model of `tdir[i] += v`: mutates, in place, the object referenced by cell `i`. -/
def iaddT (st : TanSt) (i : Nat) (v : Vec3) : TanSt :=
  let r := st.tdir.getD i 1
  ⟨st.store.set r (add3 (readObj st.store r) v), st.sdir, st.tdir⟩

/-- The UV-space determinant `r = s1*t2 - s2*t1` computed for a triangle in
`make_tangents`. -/
def uvDet (uvs : List UV) (tri : List Nat) : ℚ :=
  let w1 := uvs.getD (tri.getD 0 0) (0, 0)
  let w2 := uvs.getD (tri.getD 1 0) (0, 0)
  let w3 := uvs.getD (tri.getD 2 0) (0, 0)
  (w2.1 - w1.1) * (w3.2 - w1.2) - (w3.1 - w1.1) * (w2.2 - w1.2)

/-- One iteration of the triangle loop of `make_tangents`: compute the UV
determinant `r`; skip the triangle (`continue`) when `r*r < 1e-6`; otherwise
accumulate `sdir`/`tdir` contributions into the three cells of the triangle
(which all alias the same object, see `TanSt`). -/
def stepTri (verts : List Vec3) (uvs : List UV) (st : TanSt) (tri : List Nat) : TanSt :=
  let v1 := verts.getD (tri.getD 0 0) zero3
  let v2 := verts.getD (tri.getD 1 0) zero3
  let v3 := verts.getD (tri.getD 2 0) zero3
  let w1 := uvs.getD (tri.getD 0 0) (0, 0)
  let w2 := uvs.getD (tri.getD 1 0) (0, 0)
  let w3 := uvs.getD (tri.getD 2 0) (0, 0)
  let u1 := sub3 v2 v1
  let u2 := sub3 v3 v1
  let s1 := w2.1 - w1.1
  let s2 := w3.1 - w1.1
  let t1 := w2.2 - w1.2
  let t2 := w3.2 - w1.2
  let r := uvDet uvs tri
  if r * r < 1 / 1000000 then st
  else
    let sd := smul3 (1 / r) (sub3 (smul3 t2 u1) (smul3 t1 u2))
    let td := smul3 (1 / r) (sub3 (smul3 s1 u2) (smul3 s2 u1))
    let st := iaddS st (tri.getD 0 0) sd
    let st := iaddS st (tri.getD 1 0) sd
    let st := iaddS st (tri.getD 2 0) sd
    let st := iaddT st (tri.getD 0 0) td
    let st := iaddT st (tri.getD 1 0) td
    iaddT st (tri.getD 2 0) td

/-- mathutils `Vector.normalize()`: scales a nonzero vector to unit Euclidean
length in place, leaves a (near-)zero vector unchanged, and never raises.
The Euclidean length is irrational in general, so this exact-rational model
scales by the reciprocal of the SQUARED length instead — also a strictly
positive factor for nonzero vectors, with the same zero-vector behaviour;
every observation made of the result in this development (the zero test and
the sign of a subsequent dot product) agrees with true normalization. -/
def pyNormalize (v : Vec3) : Vec3 :=
  if dot3 v v = 0 then v else smul3 (1 / dot3 v v) v

/-- The finalize loop `for i, n in enumerate(normals)` of `make_tangents`.
`t = sdir[i]` binds a REFERENCE to the shared accumulator object; `t -= ...`
and `t.normalize()` mutate that object in place, so the store is updated
before the handedness test `t.dot(tdir[i]) < 0 and -1.0 or 1.0` reads
`tdir[i]`, and the mutation persists into later iterations. -/
def tanFinalize (st : TanSt) (i : Nat) (ns : List Vec3) : TanSt × List Tan4 :=
  match ns with
  | [] => (st, [])
  | n :: ns =>
      let r := st.sdir.getD i 0
      let t0 := readObj st.store r
      let t1 := sub3 t0 (smul3 (dot3 t0 n) n)
      let t2 := pyNormalize t1
      let st2 : TanSt := ⟨st.store.set r t2, st.sdir, st.tdir⟩
      let hand : ℚ := if dot3 t2 (tdirVal st2 i) < 0 then -1 else 1
      let rest := tanFinalize st2 (i + 1) ns
      (rest.1, ⟨t2.x, t2.y, t2.z, hand⟩ :: rest.2)

/-- The triangle loops of `make_tangents` over all submeshes. -/
def tanAccum (verts : List Vec3) (uvs : List UV) (sms : List (List (List Nat)))
    (st : TanSt) : TanSt :=
  sms.foldl (fun st sm => sm.foldl (stepTri verts uvs) st) st

/-- Model of `make_tangents(verts, uvs, normals, submeshes)`: accumulate per-triangle
tangent directions, then emit one 4-component tangent per `normals` entry. -/
def make_tangents (verts : List Vec3) (uvs : List UV) (normals : List Vec3)
    (submeshes : List (List (List Nat))) : List Tan4 :=
  (tanFinalize (tanAccum verts uvs submeshes (tanInit verts.length)) 0 normals).2

/-- A material registry record.  Modelled from the spec: the registry
MaterialRecord (with its index field) of the registry collaborator (§6); only `index` is read
here. -/
structure MaterialRec where
  index : Nat
deriving DecidableEq, Repr

/-- The exporter state as consumed here: the process-wide material registry
`mu.materials` (a dict keyed by material name), modelled as an association
list. -/
structure Mu where
  materials : List (String × MaterialRec)
deriving DecidableEq, Repr

/-- Registry lookup (`mat.name in mu.materials` / `mu.materials[mat.name]`). -/
def mget (ms : List (String × MaterialRec)) (n : String) : Option MaterialRec :=
  match ms with
  | [] => none
  | (n1, r) :: ms => if n1 = n then some r else mget ms n

/-- Modelled from the spec: `make_material` (export_mu/material.py) is not
under src/; per §4.6/§6 the registry collaborator lazily creates a
`MaterialRecord{index, ...}` for a new name, and we model creation as handing
out the next registry index.  (Claim C1 does not depend on the content of the record: `mesh_materials` discards its local list either way.) -/
def make_material (mu : Mu) (mat : BMaterial) : MaterialRec :=
  ⟨mu.materials.length⟩

/-- One iteration of the material-slot loop in `mesh_materials`: slots with an
empty `shaderName` are skipped; otherwise the material is registered if new
and its registry index appended to the local list. -/
def matStep (acc : Mu × List Nat) (mat : BMaterial) : Mu × List Nat :=
  if mat.mumatprop.shaderName ≠ "" then
    let mu :=
      match mget acc.1.materials mat.name with
      | some _ => acc.1
      | none => ⟨acc.1.materials ++ [(mat.name, make_material acc.1 mat)]⟩
    (mu, acc.2 ++ [((mget mu.materials mat.name).getD ⟨0⟩).index])
  else acc

/-- Model of `mesh_materials(mu, mesh)`: iterates the material slots, updating the
registry and building the local list `materials` — and then falls off the end
of the function body WITHOUT a `return` statement, so Python returns `None`.
The registry side effects survive; the computed list is discarded. -/
def mesh_materials (mu : Mu) (mesh : BMesh) : Mu × Option (List Nat) :=
  let acc := mesh.materials.foldl matStep (mu, [])
  (acc.1, none)

/-- A `MuRenderer` as assembled by `make_renderer` (class defined in mu.py,
outside src/; only the `materials` field is assigned here). -/
structure MuRenderer where
  materials : Option (List Nat)
deriving DecidableEq, Repr

/-- Python truthiness of `rend.materials`: `None` and `[]` are falsy. -/
def optListTruthy : Option (List Nat) → Bool
  | none => false
  | some [] => false
  | some (_ :: _) => true

/-- Model of `make_renderer(mu, mesh)`: sets `rend.materials = mesh_materials(mu, mesh)`
and returns `None` when that value is falsy (`if not rend.materials`),
otherwise the renderer. -/
def make_renderer (mu : Mu) (mesh : BMesh) : Mu × Option MuRenderer :=
  let acc := mesh_materials mu mesh
  if optListTruthy acc.2 then (acc.1, some ⟨acc.2⟩) else (acc.1, none)

/-- A bone of the armature argument of `mesh_bones` (`bone.name`). -/
structure BBone where
  name : String
deriving DecidableEq, Repr

/-- An entry of `obj.vertex_groups` (`grp.name`). -/
structure BVertGroup where
  name : String
deriving DecidableEq, Repr

/-- The error CPython raises for `for i in len(vgrp)` — iterating an `int`. -/
def typeErrIntIter : String := "TypeError: int is not iterable"

/-- The `bones` list of `mesh_bones`: object vertex-group names that match an
armature bone name, in vertex-group definition order (`boneindices[name]` is
the position in this list). -/
def resolve_bones (vertex_groups : List BVertGroup) (armature : List BBone) : List String :=
  (vertex_groups.filter
    (fun g => (armature.map (fun b => b.name)).contains g.name)).map (fun g => g.name)

/-- Model of `mesh_bones(obj, mumesh, armature)`: builds `boneset`/`bones`/
`boneindices`, then iterates `mumesh.groups`; the per-vertex body immediately
executes `for i in len(vgrp)`, which iterates an `int` and raises `TypeError`
— so the function raises for every vertex list with at least one entry, and
even on an empty list it returns only `bones`: the computed `weights` tables
are only ever `print`ed, never returned or stored. -/
def mesh_bones (vertex_groups : List BVertGroup) (mgroups : List (List MDeformWeight))
    (armature : List BBone) : Except String (List String) :=
  let bones := resolve_bones vertex_groups armature
  match mgroups with
  | [] => .ok bones
  | _ :: _ => .error typeErrIntIter

/-- A value held in a Python attribute slot by this pipeline. -/
inductive MuVal where
  | vVec3 : List Vec3 → MuVal
  | vUV : List UV → MuVal
  | vSub : List (List (List Nat)) → MuVal
  | vTan : List Tan4 → MuVal
  | vGroups : List (List MDeformWeight) → MuVal
deriving DecidableEq, Repr

/-- A Python object attribute store (used for the `MuMesh` instance and for
the Blender mesh object), modelled as an association list; assignment
prepends, lookup takes the first hit. -/
abbrev Store := List (String × MuVal)

/-- Attribute lookup. -/
def sget (s : Store) (n : String) : Option MuVal :=
  match s with
  | [] => none
  | (n1, v) :: s => if n1 = n then some v else sget s n

/-- Model of `obj.attr = v`. -/
def pySetattr (s : Store) (n : String) (v : MuVal) : Store :=
  (n, v) :: s

/-- Reading `obj.attr`: raises `AttributeError` when the attribute is not
set. -/
def pyGetattr (s : Store) (n : String) : Except String MuVal :=
  match sget s n with
  | some v => .ok v
  | none => .error (String.append "AttributeError: no attribute " n)

/-- Python truthiness of an attribute value (all values stored by this
pipeline are lists; a list is truthy iff nonempty). -/
def muvTruthy : MuVal → Bool
  | .vVec3 l => !l.isEmpty
  | .vUV l => !l.isEmpty
  | .vSub l => !l.isEmpty
  | .vTan l => !l.isEmpty
  | .vGroups l => !l.isEmpty

/-- Model of `uv[k]` on a per-vertex UV tuple (`lambda uv: uv[0]` / `lambda uv: uv[1]`
in `make_mesh`): `IndexError` when the tuple has fewer than `k+1` layers. -/
def uvLayerAt (t : UVTuple) (k : Nat) : Except String UV :=
  match t[k]? with
  | some u => .ok u
  | none => .error "IndexError: tuple index out of range"

/-- Model of `list(map(lambda uv: uv[k], uvs))`. -/
def uvChannel (uvs : List UVTuple) (k : Nat) : Except String (List UV) :=
  uvs.mapM (fun t => uvLayerAt t k)

/-- The Blender object consumed by the mesh handlers: its evaluated mesh data
(the `obj.to_mesh(...)` result, baked by the external collaborator per §6),
the attribute store of that mesh object, and `obj.vertex_groups`. -/
structure BObj where
  data : BMesh
  dataAttrs : Store
  vertex_groups : List BVertGroup
deriving DecidableEq, Repr

/-- Model of `make_mesh(mu, obj)` (the `mu` argument is unused by the source body).
Builds submeshes and the deduplicated vertex streams, then assigns:
`mumesh.verts, uvs, mumesh.normals, mesh.groups = vun` — the bone-group
reference list is assigned to the BLENDER MESH object (`mesh.groups`), not to
the `MuMesh`.  The fresh `MuMesh()` is modelled from the spec as carrying no
attributes until assigned (mu.py is not under src/; the RenderableMesh of §3 has
no bone-group field).  The `uvs` local is the per-VERTEX list of UV tuples,
so `len(uvs) > 1` tests the number of vertices, and `uv[0]`/`uv[1]` raise
`IndexError` when the tuple of a vertex has fewer layers.  Returns the final mesh
attribute store (its mutation survives even when an exception escapes) and
the `MuMesh` store or the escaping exception. -/
def make_mesh (mu : Mu) (obj : BObj) : Store × Except String Store :=
  let mesh := obj.data
  let submeshes := make_tris mesh (build_submeshes mesh)
  let vr := make_verts mesh submeshes
  let vd := vr.1
  let sms := vr.2
  let mumesh : Store := []
  let mumesh := pySetattr mumesh "verts" (.vVec3 vd.verts)
  let mumesh := pySetattr mumesh "normals" (.vVec3 vd.normals)
  let meshStore := pySetattr obj.dataAttrs "groups" (.vGroups vd.groups)
  let uvs := vd.uvs
  (meshStore, do
    let mumesh ← do
      if uvs.length ≠ 0 then do
        let mumesh ← do
          if 0 < uvs.length then do
            let c ← uvChannel uvs 0
            pure (pySetattr mumesh "uvs" (.vUV c))
          else pure mumesh
        if 1 < uvs.length then do
          let c ← uvChannel uvs 1
          pure (pySetattr mumesh "uv2s" (.vUV c))
        else pure mumesh
      else pure mumesh
    let mumesh := pySetattr mumesh "submeshes" (.vSub sms)
    let uvsAttr ← pyGetattr mumesh "uvs"
    if muvTruthy uvsAttr then
      match uvsAttr with
      | .vUV uvlist =>
          pure (pySetattr mumesh "tangents"
            (.vTan (make_tangents vd.verts uvlist vd.normals sms)))
      | _ => pure mumesh
    else pure mumesh)

/-- Model of `mesh_bones` as invoked on the `MuMesh` produced by `make_mesh`:
line 181 reads `mumesh.groups`, an attribute `make_mesh` never set on its
output, so the read itself raises `AttributeError`. -/
def mesh_bones_store (vertex_groups : List BVertGroup) (mumesh : Store)
    (armature : List BBone) : Except String (List String) := do
  let g ← pyGetattr mumesh "groups"
  match g with
  | .vGroups gs => mesh_bones vertex_groups gs armature
  | _ => .error typeErrIntIter

/-- The names bound in the module namespace of export_mu/mesh.py: its imports
(bpy, Vector, MuMesh, MuRenderer, collect_modifiers, make_material, export)
and its module-level function definitions.  `MuSkinnedMeshRenderer` is NOT
among them: line 25 imports only `MuMesh` and `MuRenderer` from `..mu`. -/
def mesh_module_globals : List String :=
  ["bpy", "Vector", "MuMesh", "MuRenderer", "collect_modifiers", "make_material",
   "export", "split_face", "build_submeshes", "make_tris", "make_verts",
   "make_tangents", "make_mesh", "mesh_materials", "make_renderer", "mesh_bones",
   "handle_mesh", "handle_skinned_mesh", "type_handlers"]

/-- Python builtins consulted after module globals (no builtin is named
`MuSkinnedMeshRenderer`). -/
def python_builtins : List String :=
  ["len", "list", "map", "tuple", "range", "set", "enumerate", "print",
   "hasattr", "delattr", "getattr", "setattr", "isinstance", "abs", "min", "max"]

/-- Python name resolution for a global reference inside a function of this
module: module globals, then builtins; otherwise the reference raises
`NameError` at evaluation time. -/
def resolve_global (n : String) : Except String String :=
  if mesh_module_globals.contains n || python_builtins.contains n then .ok n
  else .error (String.append (String.append "NameError: name " n) " is not defined")

/-- The skinned-mesh renderer record assembled by `handle_skinned_mesh`
(fields `mesh`, `bones`, `materials`). -/
structure SMR where
  mesh : Store
  bones : List String
  materials : Option (List Nat)
deriving DecidableEq, Repr

/-- A value held in an attribute slot of the `muobj` output object. -/
inductive ObjVal where
  | vRend : Option MuRenderer → ObjVal
  | vMesh : Store → ObjVal
  | vSMR : SMR → ObjVal
deriving DecidableEq, Repr

/-- The attribute store of the `muobj` output object. -/
abbrev ObjStore := List (String × ObjVal)

/-- Attribute lookup on `muobj` (`hasattr`). -/
def oGet (s : ObjStore) (n : String) : Option ObjVal :=
  match s with
  | [] => none
  | (n1, v) :: s => if n1 = n then some v else oGet s n

/-- Model of `muobj.attr = v`. -/
def oSet (s : ObjStore) (n : String) (v : ObjVal) : ObjStore :=
  (n, v) :: s

/-- Model of `delattr(muobj, n)`. -/
def oDel (s : ObjStore) (n : String) : ObjStore :=
  s.filter (fun p => p.1 != n)

/-- Model of `handle_skinned_mesh(obj, muobj, mu, armature)`: its FIRST statement,
`smr = MuSkinnedMeshRenderer()` (line 200), evaluates the global name
`MuSkinnedMeshRenderer`, which is neither defined in the module nor imported;
the rest of the body (mesh assembly, bone resolution, materials, attribute
moves) is modelled after it and is unreachable. -/
def handle_skinned_mesh (mu : Mu) (obj : BObj) (muobj : ObjStore)
    (armature : List BBone) : Except String (Mu × ObjStore) := do
  let _cls ← resolve_global "MuSkinnedMeshRenderer"
  let m := make_mesh mu obj
  let smrMesh ← m.2
  let bones ← mesh_bones_store obj.vertex_groups smrMesh armature
  let mm := mesh_materials mu obj.data
  let smr : SMR := ⟨smrMesh, bones, mm.2⟩
  let st := oSet muobj "skinned_mesh_renderer" (.vSMR smr)
  let st := if (oGet st "renderer").isSome then oDel st "renderer" else st
  let st := if (oGet st "shared_mesh").isSome then oDel st "shared_mesh" else st
  pure (mm.1, st)

/-- Concrete data for the aliasing check: four vertices, one non-degenerate
triangle over the first three; vertex 3 belongs to no triangle. -/
def c4verts : List Vec3 :=
  [⟨0, 0, 0⟩, ⟨1, 0, 0⟩, ⟨0, 1, 0⟩, ⟨5, 5, 5⟩]

/-- UVs for the aliasing check (determinant 1 for triangle [0,1,2]). -/
def c4uvs : List UV :=
  [(0, 0), (1, 0), (0, 1), (0, 0)]

/-- A one-triangle mesh with TWO UV layers, on which `make_mesh` completes
without an exception. -/
def cMesh2 : BMesh :=
  ⟨[⟨0, 3, [0, 1, 2]⟩],
   [[(0, 0), (1, 0), (0, 1)], [(0, 0), (2, 0), (0, 2)]],
   [⟨⟨0, 0, 0⟩, ⟨0, 0, 1⟩, [⟨0, 1⟩]⟩, ⟨⟨1, 0, 0⟩, ⟨0, 0, 1⟩, []⟩,
    ⟨⟨0, 1, 0⟩, ⟨0, 0, 1⟩, []⟩],
   []⟩

/-- The Blender object wrapping `cMesh2`, with an empty mesh attribute store
and one vertex group. -/
def cObj2 : BObj :=
  ⟨cMesh2, [], [⟨"A"⟩]⟩

/-- Extract the success value of an `Except` with a fallback. -/
def okD (e : Except String Store) (d : Store) : Store :=
  match e with
  | .ok s => s
  | .error _ => d

/-- Degenerate-UV data for the C10 witness: all three corners map to the same
UV point, so the UV determinant is 0. -/
def c10uvs : List UV :=
  [(1/3, 1/4), (1/3, 1/4), (1/3, 1/4)]

/-- Normals for the C10 witness. -/
def c10normals : List Vec3 :=
  [⟨0, 0, 1⟩, ⟨0, 0, 1⟩, ⟨0, 0, 1⟩]

/-- Vertex positions for the C10 witness (a genuine flat triangle). -/
def c10verts : List Vec3 :=
  [⟨0, 0, 0⟩, ⟨1, 0, 0⟩, ⟨0, 1, 0⟩]

/-! ## Theorems -/

/-- Claim C7: for every polygon face with N ≥ 3 vertices, `split_face` returns
exactly N−2 triangles by fan triangulation pivoted at corner 0: the j-th output
triangle (0-based) is (corner 0, corner (j+1), corner (j+2)), so every output
triangle has corner 0 as its first corner and the source winding order is
preserved. -/
theorem c7_fan_triangulation (mesh : BMesh) (index : Nat)
    (h : 3 ≤ (faceOf mesh index).vertices.length) :
    (split_face mesh index).length = (faceOf mesh index).vertices.length - 2 ∧
    (∀ j, j < (faceOf mesh index).vertices.length - 2 →
      (split_face mesh index).getD j (faceCorner [] [] 0, faceCorner [] [] 0, faceCorner [] [] 0) =
        (faceCorner (faceOf mesh index).vertices (faceUV mesh index) 0,
         faceCorner (faceOf mesh index).vertices (faceUV mesh index) (j + 1),
         faceCorner (faceOf mesh index).vertices (faceUV mesh index) (j + 2))) := by
  constructor
  · simp [split_face]
  · intro j hj
    have hjlen : j < (split_face mesh index).length := by
      simpa [split_face] using hj
    rw [List.getD_eq_getElem _ _ hjlen]
    simp only [split_face, List.getElem_map, List.getElem_range']
    have h1 : 1 + 1 * j = j + 1 := by omega
    rw [h1]

/-- Witness for C7 at the quad scenario: 4 corners give exactly 2 fan
triangles (0,1,2) and (0,2,3). -/
theorem c7_fan_triangulation_witness :
    3 ≤ (faceOf cMeshQ 0).vertices.length ∧
    (split_face cMeshQ 0).length = (faceOf cMeshQ 0).vertices.length - 2 ∧
    (split_face cMeshQ 0).getD 0 (faceCorner [] [] 0, faceCorner [] [] 0, faceCorner [] [] 0) =
      (faceCorner (faceOf cMeshQ 0).vertices (faceUV cMeshQ 0) 0,
       faceCorner (faceOf cMeshQ 0).vertices (faceUV cMeshQ 0) 1,
       faceCorner (faceOf cMeshQ 0).vertices (faceUV cMeshQ 0) 2) ∧
    (split_face cMeshQ 0).getD 1 (faceCorner [] [] 0, faceCorner [] [] 0, faceCorner [] [] 0) =
      (faceCorner (faceOf cMeshQ 0).vertices (faceUV cMeshQ 0) 0,
       faceCorner (faceOf cMeshQ 0).vertices (faceUV cMeshQ 0) 2,
       faceCorner (faceOf cMeshQ 0).vertices (faceUV cMeshQ 0) 3) :=
  ⟨by decide,
   (c7_fan_triangulation cMeshQ 0 (by decide)).1,
   (c7_fan_triangulation cMeshQ 0 (by decide)).2 0 (by decide),
   (c7_fan_triangulation cMeshQ 0 (by decide)).2 1 (by decide)⟩

/-! ### Vertex-deduplication lemmas -/

theorem dget_cons (k1 : CornerKey) (n : Nat) (d : KDict) (k : CornerKey) :
    dget ((k1, n) :: d) k = if k1 = k then some n else dget d k := rfl

theorem doCorner_some (mesh : BMesh) (s : VertData × KDict) (vuv : CornerKey) (n : Nat)
    (h : dget s.2 vuv = some n) : doCorner mesh s vuv = (s, n) := by
  simp [doCorner, h]

theorem doCorner_none (mesh : BMesh) (s : VertData × KDict) (vuv : CornerKey)
    (h : dget s.2 vuv = none) :
    doCorner mesh s vuv =
      ((⟨s.1.verts ++ [(meshVertex mesh vuv.1).co],
         s.1.normals ++ [(meshVertex mesh vuv.1).normal],
         s.1.uvs ++ [vuv.2],
         s.1.groups ++ [(meshVertex mesh vuv.1).groups]⟩,
        (vuv, s.1.verts.length) :: s.2), s.1.verts.length) := by
  simp [doCorner, h]

theorem doCorner_verts_le (mesh : BMesh) (s : VertData × KDict) (vuv : CornerKey) :
    s.1.verts.length ≤ ((doCorner mesh s vuv).1).1.verts.length := by
  cases h : dget s.2 vuv with
  | none => rw [doCorner_none mesh s vuv h]; simp
  | some n => rw [doCorner_some mesh s vuv n h]

theorem doCorner_dictOk (mesh : BMesh) (s : VertData × KDict) (vuv : CornerKey)
    (h : dictOk s) : dictOk (doCorner mesh s vuv).1 := by
  cases hd : dget s.2 vuv with
  | some n => rw [doCorner_some mesh s vuv n hd]; exact h
  | none =>
      rw [doCorner_none mesh s vuv hd]
      intro k m hk
      rw [dget_cons] at hk
      by_cases hkv : vuv = k
      · rw [if_pos hkv] at hk
        cases hk
        simp
      · rw [if_neg hkv] at hk
        have := h k m hk
        simp only [List.length_append, List.length_cons]
        omega

theorem doCorner_idx_lt (mesh : BMesh) (s : VertData × KDict) (vuv : CornerKey)
    (h : dictOk s) :
    (doCorner mesh s vuv).2 < ((doCorner mesh s vuv).1).1.verts.length := by
  cases hd : dget s.2 vuv with
  | some n => rw [doCorner_some mesh s vuv n hd]; exact h vuv n hd
  | none => rw [doCorner_none mesh s vuv hd]; simp

theorem dget_doCorner_pres (mesh : BMesh) (s : VertData × KDict) (vuv k : CornerKey) (n : Nat)
    (h : dget s.2 k = some n) : dget ((doCorner mesh s vuv).1).2 k = some n := by
  cases hd : dget s.2 vuv with
  | some m => rw [doCorner_some mesh s vuv m hd]; exact h
  | none =>
      rw [doCorner_none mesh s vuv hd, dget_cons]
      have hne : vuv ≠ k := by
        intro he
        rw [he] at hd
        rw [hd] at h
        exact Option.noConfusion h
      rw [if_neg hne]
      exact h

theorem doCorner_binds (mesh : BMesh) (s : VertData × KDict) (vuv : CornerKey) :
    dget ((doCorner mesh s vuv).1).2 vuv = some (doCorner mesh s vuv).2 := by
  cases hd : dget s.2 vuv with
  | some n => rw [doCorner_some mesh s vuv n hd]; exact hd
  | none => rw [doCorner_none mesh s vuv hd, dget_cons, if_pos rfl]

theorem doCorner_dictInj (mesh : BMesh) (s : VertData × KDict) (vuv : CornerKey)
    (hOk : dictOk s) (hInj : dictInj s.2) : dictInj ((doCorner mesh s vuv).1).2 := by
  cases hd : dget s.2 vuv with
  | some n => rw [doCorner_some mesh s vuv n hd]; exact hInj
  | none =>
      rw [doCorner_none mesh s vuv hd]
      intro k1 k2 m h1 h2
      rw [dget_cons] at h1 h2
      by_cases hv1 : vuv = k1 <;> by_cases hv2 : vuv = k2
      · rw [← hv1, ← hv2]
      · rw [if_pos hv1] at h1
        rw [if_neg hv2] at h2
        cases h1
        have := hOk k2 _ h2
        omega
      · rw [if_neg hv1] at h1
        rw [if_pos hv2] at h2
        cases h2
        have := hOk k1 _ h1
        omega
      · rw [if_neg hv1] at h1
        rw [if_neg hv2] at h2
        exact hInj k1 k2 m h1 h2

theorem doCorner_balanced (mesh : BMesh) (s : VertData × KDict) (vuv : CornerKey)
    (h : balanced s.1) : balanced ((doCorner mesh s vuv).1).1 := by
  cases hd : dget s.2 vuv with
  | some n => rw [doCorner_some mesh s vuv n hd]; exact h
  | none =>
      rw [doCorner_none mesh s vuv hd]
      obtain ⟨h1, h2, h3⟩ := h
      refine ⟨?_, ?_, ?_⟩ <;> simp [h1, h2, h3]

theorem doCorners_verts_le (mesh : BMesh) (ks : List CornerKey) (s : VertData × KDict) :
    s.1.verts.length ≤ ((doCorners mesh s ks).1).1.verts.length := by
  induction ks generalizing s with
  | nil => simp [doCorners]
  | cons k ks ih =>
      simp only [doCorners]
      exact le_trans (doCorner_verts_le mesh s k) (ih _)

theorem doCorners_dictOk (mesh : BMesh) (ks : List CornerKey) (s : VertData × KDict)
    (h : dictOk s) : dictOk (doCorners mesh s ks).1 := by
  induction ks generalizing s with
  | nil => exact h
  | cons k ks ih =>
      simp only [doCorners]
      exact ih _ (doCorner_dictOk mesh s k h)

theorem doCorners_balanced (mesh : BMesh) (ks : List CornerKey) (s : VertData × KDict)
    (h : balanced s.1) : balanced ((doCorners mesh s ks).1).1 := by
  induction ks generalizing s with
  | nil => exact h
  | cons k ks ih =>
      simp only [doCorners]
      exact ih _ (doCorner_balanced mesh s k h)

theorem doCorners_dictInj (mesh : BMesh) (ks : List CornerKey) (s : VertData × KDict)
    (hOk : dictOk s) (hInj : dictInj s.2) : dictInj ((doCorners mesh s ks).1).2 := by
  induction ks generalizing s with
  | nil => exact hInj
  | cons k ks ih =>
      simp only [doCorners]
      exact ih _ (doCorner_dictOk mesh s k hOk) (doCorner_dictInj mesh s k hOk hInj)

theorem doCorners_length (mesh : BMesh) (ks : List CornerKey) (s : VertData × KDict) :
    ((doCorners mesh s ks).2).length = ks.length := by
  induction ks generalizing s with
  | nil => simp [doCorners]
  | cons k ks ih => simp [doCorners, ih]

theorem dget_doCorners_pres (mesh : BMesh) (ks : List CornerKey) (s : VertData × KDict)
    (k : CornerKey) (n : Nat) (h : dget s.2 k = some n) :
    dget ((doCorners mesh s ks).1).2 k = some n := by
  induction ks generalizing s with
  | nil => exact h
  | cons k1 ks ih =>
      simp only [doCorners]
      exact ih _ (dget_doCorner_pres mesh s k1 k n h)

theorem doCorners_out_lt (mesh : BMesh) (ks : List CornerKey) (s : VertData × KDict)
    (h : dictOk s) :
    ∀ n ∈ (doCorners mesh s ks).2, n < ((doCorners mesh s ks).1).1.verts.length := by
  induction ks generalizing s with
  | nil => simp [doCorners]
  | cons k ks ih =>
      simp only [doCorners, List.mem_cons]
      intro n hn
      cases hn with
      | inl he =>
          rw [he]
          exact lt_of_lt_of_le (doCorner_idx_lt mesh s k h) (doCorners_verts_le mesh ks _)
      | inr hm => exact ih _ (doCorner_dictOk mesh s k h) n hm

theorem doCorners_binds (mesh : BMesh) (ks : List CornerKey) (s : VertData × KDict)
    (p : Nat) (hp : p < ks.length) :
    dget ((doCorners mesh s ks).1).2 (ks.getD p (0, [])) =
      some ((doCorners mesh s ks).2.getD p 0) := by
  induction ks generalizing s p with
  | nil => exact absurd hp (by simp)
  | cons k ks ih =>
      cases p with
      | zero =>
          simp only [doCorners, List.getD_cons_zero]
          exact dget_doCorners_pres mesh ks _ k _ (doCorner_binds mesh s k)
      | succ p =>
          simp only [doCorners, List.getD_cons_succ]
          exact ih _ _ (by simpa using hp)

theorem countNew_congr (ks : List CornerKey) (d1 d2 : KDict)
    (h : ∀ k, (dget d1 k).isSome = (dget d2 k).isSome) :
    countNew d1 ks = countNew d2 ks := by
  induction ks generalizing d1 d2 with
  | nil => rfl
  | cons k ks ih =>
      have hk := h k
      simp only [countNew]
      cases h1 : dget d1 k with
      | some n =>
          rw [h1] at hk
          cases h2 : dget d2 k with
          | some m => exact ih d1 d2 h
          | none => rw [h2] at hk; simp at hk
      | none =>
          rw [h1] at hk
          cases h2 : dget d2 k with
          | some m => rw [h2] at hk; simp at hk
          | none =>
              have : countNew ((k, 0) :: d1) ks = countNew ((k, 0) :: d2) ks := by
                refine ih _ _ (fun k2 => ?_)
                rw [dget_cons, dget_cons]
                by_cases hkk : k = k2
                · rw [if_pos hkk, if_pos hkk]
                · rw [if_neg hkk, if_neg hkk]; exact h k2
              rw [this]

theorem doCorners_growth (mesh : BMesh) (ks : List CornerKey) (s : VertData × KDict) :
    ((doCorners mesh s ks).1).1.verts.length = s.1.verts.length + countNew s.2 ks := by
  induction ks generalizing s with
  | nil => simp [doCorners, countNew]
  | cons k ks ih =>
      simp only [doCorners, countNew]
      cases hd : dget s.2 k with
      | some n =>
          rw [doCorner_some mesh s k n hd]
          exact ih s
      | none =>
          rw [doCorner_none mesh s k hd]
          rw [ih _]
          simp only [List.length_append, List.length_cons, List.length_nil]
          have hcongr : countNew ((k, s.1.verts.length) :: s.2) ks =
              countNew ((k, 0) :: s.2) ks := by
            refine countNew_congr ks _ _ (fun k2 => ?_)
            rw [dget_cons, dget_cons]
            by_cases hkk : k = k2
            · rw [if_pos hkk, if_pos hkk]; rfl
            · rw [if_neg hkk, if_neg hkk]
          rw [hcongr]
          omega

theorem dget_isSome_iff (d : KDict) (k : CornerKey) :
    (dget d k).isSome ↔ k ∈ dkeys d := by
  induction d with
  | nil => simp [dget, dkeys]
  | cons p d ih =>
      obtain ⟨k1, n⟩ := p
      rw [dget_cons]
      by_cases hk : k1 = k
      · rw [if_pos hk]
        simp [dkeys, hk]
      · rw [if_neg hk]
        simp only [dkeys, List.map_cons, List.toFinset_cons, Finset.mem_insert]
        rw [ih]
        simp only [dkeys]
        constructor
        · intro hm; exact Or.inr hm
        · intro hm
          cases hm with
          | inl he => exact absurd he.symm hk
          | inr hm => exact hm

theorem countNew_card (ks : List CornerKey) (d : KDict) :
    countNew d ks = (ks.toFinset \ dkeys d).card := by
  induction ks generalizing d with
  | nil => simp [countNew]
  | cons k ks ih =>
      simp only [countNew, List.toFinset_cons]
      cases hd : dget d k with
      | some n =>
          have hk : k ∈ dkeys d := by
            rw [← dget_isSome_iff, hd]
            rfl
          rw [Finset.insert_sdiff_of_mem _ hk]
          exact ih d
      | none =>
          have hk : k ∉ dkeys d := by
            rw [← dget_isSome_iff, hd]
            simp
          have hdk : dkeys ((k, 0) :: d) = insert k (dkeys d) := by
            simp [dkeys]
          show countNew ((k, 0) :: d) ks + 1 = (insert k ks.toFinset \ dkeys d).card
          rw [ih _, hdk]
          have e1 : insert k ks.toFinset \ dkeys d = insert k (ks.toFinset \ dkeys d) := by
            ext x
            simp only [Finset.mem_sdiff, Finset.mem_insert]
            constructor
            · rintro ⟨hx | hx, hnd⟩
              · exact Or.inl hx
              · exact Or.inr ⟨hx, hnd⟩
            · rintro (hx | ⟨hx, hnd⟩)
              · subst hx; exact ⟨Or.inl rfl, hk⟩
              · exact ⟨Or.inr hx, hnd⟩
          have e2 : ks.toFinset \ insert k (dkeys d) = (ks.toFinset \ dkeys d).erase k := by
            ext x
            simp only [Finset.mem_sdiff, Finset.mem_insert, Finset.mem_erase]
            tauto
          rw [e1, e2]
          have e3 : insert k (ks.toFinset \ dkeys d) =
              insert k ((ks.toFinset \ dkeys d).erase k) := by
            ext x
            simp only [Finset.mem_insert, Finset.mem_erase]
            by_cases hx : x = k
            · simp [hx]
            · simp [hx]
          rw [e3, Finset.card_insert_of_not_mem (Finset.not_mem_erase k _)]

theorem doTris_eq_doCorners (mesh : BMesh) (tris : List FTri) (s : VertData × KDict) :
    (doTris mesh s tris).1 = (doCorners mesh s (allCorners tris)).1 ∧
    ((doTris mesh s tris).2).flatten = (doCorners mesh s (allCorners tris)).2 := by
  induction tris generalizing s with
  | nil => simp [doTris, doCorners, allCorners]
  | cons t ts ih =>
      have hall : allCorners (t :: ts) = t.1 :: t.2.1 :: t.2.2 :: allCorners ts := by
        simp [allCorners]
      rw [hall]
      simp only [doTris, doTri, doCorners, List.flatten_cons]
      obtain ⟨ih1, ih2⟩ := ih ((doCorner mesh
        ((doCorner mesh ((doCorner mesh s t.1).1) t.2.1).1) t.2.2).1)
      constructor
      · exact ih1
      · rw [← ih2]
        simp

theorem dictOk_nil (vd : VertData) : dictOk (vd, ([] : KDict)) := by
  intro k n h
  simp [dget] at h

theorem dictInj_nil : dictInj ([] : KDict) := by
  intro k1 k2 n h1 h2
  simp [dget] at h1

theorem doTris_verts_le (mesh : BMesh) (tris : List FTri) (s : VertData × KDict) :
    s.1.verts.length ≤ ((doTris mesh s tris).1).1.verts.length := by
  rw [(doTris_eq_doCorners mesh tris s).1]
  exact doCorners_verts_le mesh (allCorners tris) s

theorem doTris_balanced (mesh : BMesh) (tris : List FTri) (s : VertData × KDict)
    (h : balanced s.1) : balanced ((doTris mesh s tris).1).1 := by
  rw [(doTris_eq_doCorners mesh tris s).1]
  exact doCorners_balanced mesh (allCorners tris) s h

theorem doTris_out_lt (mesh : BMesh) (tris : List FTri) (vd : VertData) :
    ∀ tv ∈ (doTris mesh (vd, []) tris).2, ∀ n ∈ tv,
      n < ((doTris mesh (vd, []) tris).1).1.verts.length := by
  intro tv htv n hn
  have hflat : n ∈ ((doTris mesh (vd, []) tris).2).flatten :=
    List.mem_flatten.mpr ⟨tv, htv, hn⟩
  rw [(doTris_eq_doCorners mesh tris (vd, [])).2] at hflat
  rw [(doTris_eq_doCorners mesh tris (vd, [])).1]
  exact doCorners_out_lt mesh (allCorners tris) (vd, []) (dictOk_nil vd) n hflat

theorem doSubmeshes_verts_le (mesh : BMesh) (sms : List (List FTri)) (vd : VertData) :
    vd.verts.length ≤ (doSubmeshes mesh vd sms).1.verts.length := by
  induction sms generalizing vd with
  | nil => simp [doSubmeshes]
  | cons sm rest ih =>
      simp only [doSubmeshes]
      exact le_trans (doTris_verts_le mesh sm (vd, [])) (ih _)

theorem doSubmeshes_balanced (mesh : BMesh) (sms : List (List FTri)) (vd : VertData)
    (h : balanced vd) : balanced (doSubmeshes mesh vd sms).1 := by
  induction sms generalizing vd with
  | nil => exact h
  | cons sm rest ih =>
      simp only [doSubmeshes]
      exact ih _ (doTris_balanced mesh sm (vd, []) h)

theorem doSubmeshes_out_lt (mesh : BMesh) (sms : List (List FTri)) (vd : VertData) :
    ∀ sm2 ∈ (doSubmeshes mesh vd sms).2, ∀ tv ∈ sm2, ∀ n ∈ tv,
      n < (doSubmeshes mesh vd sms).1.verts.length := by
  induction sms generalizing vd with
  | nil => simp [doSubmeshes]
  | cons sm rest ih =>
      simp only [doSubmeshes, List.mem_cons]
      intro sm2 hsm2 tv htv n hn
      cases hsm2 with
      | inl he =>
          subst he
          exact lt_of_lt_of_le (doTris_out_lt mesh sm vd tv htv n hn)
            (doSubmeshes_verts_le mesh rest _)
      | inr hm => exact ih _ sm2 hm tv htv n hn

/-- Claim C8: after vertex deduplication, every index of every rewritten
triangle in every submesh is a valid index into the vertex stream: each entry
is strictly less than the length of the positions array returned by
`make_verts`. -/
theorem c8_indices_in_bounds (mesh : BMesh) (submeshes : List (List FTri)) :
    ∀ sm ∈ (make_verts mesh submeshes).2, ∀ tv ∈ sm, ∀ n ∈ tv,
      n < (make_verts mesh submeshes).1.verts.length :=
  doSubmeshes_out_lt mesh submeshes ⟨[], [], [], []⟩

/-- Witness for C8 at a concrete one-triangle mesh: index 2 of the rewritten
triangle [0, 1, 2] is below the vertex-stream length 3. -/
theorem c8_indices_in_bounds_witness :
    [[0, 1, 2]] ∈ (make_verts cMesh3 [[ctri3]]).2 ∧
    [0, 1, 2] ∈ ([[[0, 1, 2]]] : List (List (List Nat))).getD 0 [] ∧
    (2 : Nat) < (make_verts cMesh3 [[ctri3]]).1.verts.length :=
  ⟨by decide, by decide,
   c8_indices_in_bounds cMesh3 [[ctri3]] [[0, 1, 2]] (by decide) [0, 1, 2] (by decide)
     2 (by decide)⟩

/-- Claim C3 (amended): the CornerKey-to-index mapping is scoped per submesh
(`vuvdict = {}` is re-created for each submesh), not across the whole mesh.
Within one submesh, two corners receive the same deduplicated index exactly
when their CornerKeys (source vertex index plus all present UV coordinates)
are equal — in particular corners differing in any UV coordinate receive
distinct indices — and the number of vertex rows emitted for the submesh is
exactly the number of distinct CornerKeys in it (each deduplicated vertex is
emitted once per submesh that uses it). -/
theorem c3_dedup_per_submesh (mesh : BMesh) (vd : VertData) (sm : List FTri)
    (p q : Nat) (hp : p < (allCorners sm).length) (hq : q < (allCorners sm).length) :
    (((doTris mesh (vd, []) sm).2).flatten.getD p 0 =
        ((doTris mesh (vd, []) sm).2).flatten.getD q 0 ↔
      (allCorners sm).getD p (0, []) = (allCorners sm).getD q (0, [])) ∧
    ((doTris mesh (vd, []) sm).1).1.verts.length =
      vd.verts.length + (allCorners sm).toFinset.card := by
  have hbr := doTris_eq_doCorners mesh sm (vd, [])
  have hbindp := doCorners_binds mesh (allCorners sm) (vd, []) p hp
  have hbindq := doCorners_binds mesh (allCorners sm) (vd, []) q hq
  have hinj := doCorners_dictInj mesh (allCorners sm) (vd, []) (dictOk_nil vd) dictInj_nil
  constructor
  · rw [hbr.2]
    constructor
    · intro he
      rw [he] at hbindp
      exact hinj _ _ _ hbindp hbindq
    · intro he
      rw [he] at hbindp
      rw [hbindp] at hbindq
      exact (Option.some.injEq _ _).mp hbindq
  · rw [hbr.1, doCorners_growth, countNew_card]
    have : dkeys ([] : KDict) = ∅ := by simp [dkeys]
    rw [this, Finset.sdiff_empty]

/-- Witness for the amended C3 theorem at a concrete submesh whose first and
third corners carry the same CornerKey: they receive the same index, and only
two vertex rows are emitted for the three corners. -/
theorem c3_dedup_per_submesh_witness :
    (0 : Nat) < (allCorners [ctriW]).length ∧ (2 : Nat) < (allCorners [ctriW]).length ∧
    (((doTris cMesh3 (⟨[], [], [], []⟩, []) [ctriW]).2).flatten.getD 0 0 =
        ((doTris cMesh3 (⟨[], [], [], []⟩, []) [ctriW]).2).flatten.getD 2 0 ↔
      (allCorners [ctriW]).getD 0 (0, []) = (allCorners [ctriW]).getD 2 (0, [])) ∧
    ((doTris cMesh3 (⟨[], [], [], []⟩, []) [ctriW]).1).1.verts.length =
      (0 : Nat) + (allCorners [ctriW]).toFinset.card :=
  ⟨by decide, by decide,
   (c3_dedup_per_submesh cMesh3 ⟨[], [], [], []⟩ [ctriW] 0 2 (by decide) (by decide)).1,
   (c3_dedup_per_submesh cMesh3 ⟨[], [], [], []⟩ [ctriW] 0 2 (by decide) (by decide)).2⟩

/-- Counterexample to claim C3 as stated: the same CornerKey triangle fed to
two submeshes is assigned the indices 0,1,2 in the first submesh but the fresh
indices 3,4,5 in the second, and the three vertices are emitted twice (six
rows), because `vuvdict = {}` is re-created inside the per-submesh loop. -/
theorem c3_cross_submesh_cex :
    (make_verts cMesh3 [[ctri3], [ctri3]]).2 = [[[0, 1, 2]], [[3, 4, 5]]] ∧
    (make_verts cMesh3 [[ctri3], [ctri3]]).1.verts.length = 6 := by
  constructor
  · decide
  · decide

/-! ### Tangent-builder lemmas -/

theorem getD_replicate {α : Type} (n : Nat) (a : α) (i : Nat) :
    (List.replicate n a).getD i a = a := by
  induction n generalizing i with
  | zero => rfl
  | succ n ih =>
      cases i with
      | zero => rfl
      | succ i => simpa [List.replicate] using ih i

theorem stepTri_degenerate (verts : List Vec3) (uvs : List UV) (st : TanSt)
    (tri : List Nat) (h : uvDet uvs tri * uvDet uvs tri < 1 / 1000000) :
    stepTri verts uvs st tri = st := by
  simp only [stepTri]
  rw [if_pos h]

theorem foldl_stepTri_degenerate (verts : List Vec3) (uvs : List UV)
    (sm : List (List Nat)) (st : TanSt)
    (h : ∀ tri ∈ sm, uvDet uvs tri * uvDet uvs tri < 1 / 1000000) :
    sm.foldl (stepTri verts uvs) st = st := by
  induction sm generalizing st with
  | nil => rfl
  | cons t ts ih =>
      rw [List.foldl_cons, stepTri_degenerate verts uvs st t (h t (by simp))]
      exact ih st (fun tri htri => h tri (by simp [htri]))

theorem tanAccum_degenerate (verts : List Vec3) (uvs : List UV)
    (sms : List (List (List Nat))) (st : TanSt)
    (h : ∀ sm ∈ sms, ∀ tri ∈ sm, uvDet uvs tri * uvDet uvs tri < 1 / 1000000) :
    tanAccum verts uvs sms st = st := by
  induction sms generalizing st with
  | nil => rfl
  | cons sm rest ih =>
      simp only [tanAccum, List.foldl_cons]
      rw [foldl_stepTri_degenerate verts uvs sm st (h sm (by simp))]
      exact ih st (fun sm2 hsm2 tri htri => h sm2 (by simp [hsm2]) tri htri)

theorem tanFinalize_length (ns : List Vec3) (st : TanSt) (i : Nat) :
    ((tanFinalize st i ns).2).length = ns.length := by
  induction ns generalizing st i with
  | nil => rfl
  | cons n ns ih => simp [tanFinalize, ih]

theorem tanFinalize_hand (ns : List Vec3) (st : TanSt) (i : Nat) :
    ∀ t ∈ (tanFinalize st i ns).2, t.hand = -1 ∨ t.hand = 1 := by
  induction ns generalizing st i with
  | nil => simp [tanFinalize]
  | cons n ns ih =>
      simp only [tanFinalize, List.mem_cons]
      intro t ht
      cases ht with
      | inl he =>
          rw [he]
          split
          · exact Or.inl rfl
          · exact Or.inr rfl
      | inr hm => exact ih _ _ t hm

theorem zero_orth_step (v : Vec3) : sub3 zero3 (smul3 (dot3 zero3 v) v) = zero3 := by
  simp [sub3, smul3, dot3, zero3]

theorem pyNormalize_zero : pyNormalize zero3 = zero3 := by
  simp [pyNormalize, dot3, zero3]

theorem tanFinalize_tanInit (ns : List Vec3) (n : Nat) (i : Nat) :
    tanFinalize (tanInit n) i ns = (tanInit n, List.replicate ns.length ⟨0, 0, 0, 1⟩) := by
  induction ns generalizing i with
  | nil => rfl
  | cons v ns ih =>
      have hr : (tanInit n).sdir.getD i 0 = 0 := by
        simp [tanInit, getD_replicate]
      have ht0 : readObj (tanInit n).store 0 = zero3 := rfl
      have hset : ((tanInit n).store.set 0 zero3) = (tanInit n).store := rfl
      simp only [tanFinalize, hr, ht0, zero_orth_step, pyNormalize_zero, hset]
      have hdot : ∀ w, dot3 zero3 w = 0 := by
        intro w
        simp [dot3, zero3]
      rw [hdot]
      simp only [show ¬((0 : ℚ) < 0) from lt_irrefl 0, if_neg, not_false_iff]
      have hst : (⟨(tanInit n).store, (tanInit n).sdir, (tanInit n).tdir⟩ : TanSt) = tanInit n := rfl
      rw [hst, ih (i + 1)]
      simp [zero3, List.replicate]

/-- Claim C10: numeric degeneracies never propagate as failures from the
tangent builder.  (a) every triangle whose UV determinant r satisfies
r*r < 1e-6 is skipped without contributing to any accumulator (the state is
unchanged) and without raising; (b) for every input, `make_tangents` returns
(no exception) one tangent entry per vertex, whose handedness component is
−1.0 when t·tdir < 0 and +1.0 otherwise — in particular always ±1.0;
(c) when every triangle is degenerate, every vertex — touched only by skipped
triangles — still receives the fallback entry (0,0,0,+1.0). -/
theorem c10_degenerate_handling :
    (∀ (verts : List Vec3) (uvs : List UV) (st : TanSt) (tri : List Nat),
        uvDet uvs tri * uvDet uvs tri < 1 / 1000000 →
        stepTri verts uvs st tri = st) ∧
    (∀ (verts : List Vec3) (uvs : List UV) (normals : List Vec3)
        (sms : List (List (List Nat))),
        (make_tangents verts uvs normals sms).length = normals.length ∧
        ∀ t ∈ make_tangents verts uvs normals sms, t.hand = -1 ∨ t.hand = 1) ∧
    (∀ (verts : List Vec3) (uvs : List UV) (normals : List Vec3)
        (sms : List (List (List Nat))),
        (∀ sm ∈ sms, ∀ tri ∈ sm, uvDet uvs tri * uvDet uvs tri < 1 / 1000000) →
        make_tangents verts uvs normals sms =
          List.replicate normals.length ⟨0, 0, 0, 1⟩) := by
  refine ⟨stepTri_degenerate, ?_, ?_⟩
  · intro verts uvs normals sms
    exact ⟨tanFinalize_length normals _ 0, tanFinalize_hand normals _ 0⟩
  · intro verts uvs normals sms h
    unfold make_tangents
    rw [tanAccum_degenerate verts uvs sms (tanInit verts.length) h,
      tanFinalize_tanInit normals verts.length 0]

/-- Witness for C10 at the flat-triangle scenario of §8: all three corners
share one UV point (determinant 0), the triangle is skipped, and the fallback
tangent (0,0,0,+1.0) is emitted for all three vertices. -/
theorem c10_degenerate_handling_witness :
    uvDet c10uvs [0, 1, 2] * uvDet c10uvs [0, 1, 2] < 1 / 1000000 ∧
    stepTri c10verts c10uvs (tanInit 3) [0, 1, 2] = tanInit 3 ∧
    make_tangents c10verts c10uvs c10normals [[[0, 1, 2]]] =
      List.replicate c10normals.length ⟨0, 0, 0, 1⟩ := by
  have h1 : uvDet c10uvs [0, 1, 2] * uvDet c10uvs [0, 1, 2] < 1 / 1000000 := by
    norm_num [uvDet, c10uvs]
  refine ⟨h1, c10_degenerate_handling.1 c10verts c10uvs (tanInit 3) [0, 1, 2] h1, ?_⟩
  refine c10_degenerate_handling.2.2 c10verts c10uvs c10normals [[[0, 1, 2]]] ?_
  intro sm hsm tri htri
  rw [List.mem_singleton] at hsm
  rw [hsm, List.mem_singleton] at htri
  rw [htri]
  exact h1

/-- Claim C4 is false in the code: `sdir = [Vector()] * len(verts)` makes all
cells of the accumulator list references to ONE shared mathutils Vector, and
`sdir[tri[k]] += sd` mutates that object in place.  At a concrete input with
four vertices whose only (non-degenerate) triangle is [0,1,2], vertex 3
belongs to no triangle, yet the accumulated value observed at index 3 changes
from (0,0,0) to (3,0,0) — the cells are aliased, not independent. -/
theorem c4_accumulator_aliasing :
    (tanInit 4).sdir = List.replicate 4 0 ∧
    sdirVal (tanInit 4) 3 = zero3 ∧
    sdirVal (stepTri c4verts c4uvs (tanInit 4) [0, 1, 2]) 3 = ⟨3, 0, 0⟩ ∧
    sdirVal (stepTri c4verts c4uvs (tanInit 4) [0, 1, 2]) 3 ≠ sdirVal (tanInit 4) 3 := by
  have hstep : sdirVal (stepTri c4verts c4uvs (tanInit 4) [0, 1, 2]) 3 = ⟨3, 0, 0⟩ := by
    norm_num [stepTri, uvDet, c4verts, c4uvs, tanInit, iaddS, iaddT, readObj, sdirVal,
      sub3, smul3, add3, zero3, List.set, List.replicate]
  refine ⟨rfl, rfl, hstep, ?_⟩
  rw [hstep]
  intro he
  have := congrArg Vec3.x he
  norm_num [sdirVal, tanInit, readObj, zero3, List.replicate] at this

/-- Claim C9: the parallel sequences produced by the pipeline have equal
lengths: `make_verts` returns four lists of one common length, and
`make_tangents` returns exactly one (4-component, by the `Tan4` type) tangent
per vertex: its output length equals the `normals` length, which equals the
vertex-stream length. -/
theorem c9_parallel_lengths (mesh : BMesh) (submeshes : List (List FTri))
    (uvchan : List UV) (sms2 : List (List (List Nat))) :
    ((make_verts mesh submeshes).1.normals.length =
        (make_verts mesh submeshes).1.verts.length ∧
      (make_verts mesh submeshes).1.uvs.length =
        (make_verts mesh submeshes).1.verts.length ∧
      (make_verts mesh submeshes).1.groups.length =
        (make_verts mesh submeshes).1.verts.length) ∧
    (make_tangents (make_verts mesh submeshes).1.verts uvchan
        (make_verts mesh submeshes).1.normals sms2).length =
      (make_verts mesh submeshes).1.verts.length := by
  have hb := doSubmeshes_balanced mesh submeshes ⟨[], [], [], []⟩ ⟨rfl, rfl, rfl⟩
  refine ⟨hb, ?_⟩
  unfold make_tangents
  rw [tanFinalize_length]
  exact hb.1

/-- A mesh with a single material slot carrying a non-empty shader
assignment. -/
def cMatMesh : BMesh :=
  ⟨[], [], [], [⟨"mat1", ⟨"KSP Diffuse"⟩⟩]⟩

/-- Claim C1 is false in the code: `mesh_materials` builds the registry-index
list but its body ends WITHOUT a return statement, so it returns `None`;
`make_renderer` therefore stores `None` into `rend.materials`, finds it falsy,
and returns `None` for EVERY mesh — even one whose slot has a non-empty
shader assignment (second conjunct: the registry is nevertheless populated,
so the loop did run and its result was discarded). -/
theorem c1_make_renderer_never_some :
    (∀ (mu : Mu) (mesh : BMesh), (make_renderer mu mesh).2 = none) ∧
    (mesh_materials ⟨[]⟩ cMatMesh).1.materials = [("mat1", ⟨0⟩)] := by
  exact ⟨fun mu mesh => rfl, by decide⟩

/-- Claim C2 is false in the code: for every vertex list with at least one
entry, `mesh_bones` raises `TypeError` at `for i in len(vgrp)` (iterating an
`int`) before any BoneWeight table can be produced; the second conjunct
evaluates it at the §8 scenario vertex [(A,0.7),(B,0.2),(C,0.1)] with armature
bones A,B. -/
theorem c2_mesh_bones_type_error :
    (∀ (vgs : List BVertGroup) (g : List MDeformWeight)
        (gs : List (List MDeformWeight)) (arm : List BBone),
        mesh_bones vgs (g :: gs) arm = .error typeErrIntIter) ∧
    mesh_bones [⟨"A"⟩, ⟨"B"⟩, ⟨"C"⟩]
        [[⟨0, 7/10⟩, ⟨1, 2/10⟩, ⟨2, 1/10⟩]] [⟨"A"⟩, ⟨"B"⟩] = .error typeErrIntIter := by
  exact ⟨fun vgs g gs arm => rfl, rfl⟩

/-! ### Name-resolution and attribute-store lemmas -/

theorem except_bind_ok {α β : Type} (a : α) (f : α → Except String β) :
    (Except.ok a >>= f) = f a := rfl

theorem except_bind_err {α β : Type} (e : String) (f : α → Except String β) :
    ((Except.error e : Except String α) >>= f) = .error e := rfl

theorem except_pure {α : Type} (a : α) : (pure a : Except String α) = .ok a := rfl

/-- Claim C5: for every input, `handle_skinned_mesh` fails with an
unresolved-name error before producing any output: its first statement
instantiates `MuSkinnedMeshRenderer`, a name neither defined in this module
nor imported by it, so the `NameError` escapes and the skinned-mesh assembly
path can never return a skinned renderable mesh. -/
theorem c5_handle_skinned_mesh_name_error (mu : Mu) (obj : BObj) (muobj : ObjStore)
    (armature : List BBone) :
    handle_skinned_mesh mu obj muobj armature =
      .error "NameError: name MuSkinnedMeshRenderer is not defined" := by
  have h : resolve_global "MuSkinnedMeshRenderer" =
      .error "NameError: name MuSkinnedMeshRenderer is not defined" := rfl
  unfold handle_skinned_mesh
  rw [h]
  rfl

theorem make_mesh_ok_no_groups (mu : Mu) (obj : BObj) (mm : Store)
    (h : (make_mesh mu obj).2 = .ok mm) : sget mm "groups" = none := by
  simp only [make_mesh] at h
  split at h
  · -- uvs nonempty: the "uvs" (and possibly "uv2s") channel assignments run
    split at h
    · cases hc0 : uvChannel
        (make_verts obj.data (make_tris obj.data (build_submeshes obj.data))).1.uvs 0 with
      | error e =>
          rw [hc0] at h
          simp [except_bind_err] at h
      | ok c0 =>
          rw [hc0] at h
          simp only [except_bind_ok, except_pure] at h
          split at h
          · cases hc1 : uvChannel
              (make_verts obj.data (make_tris obj.data (build_submeshes obj.data))).1.uvs 1 with
            | error e =>
                rw [hc1] at h
                simp [except_bind_err] at h
            | ok c1 =>
                rw [hc1] at h
                simp [except_bind_ok, except_pure, pyGetattr, pySetattr, sget, muvTruthy] at h
                split at h <;>
                  · injection h with h2
                    subst h2
                    rfl
          · simp [except_bind_ok, except_pure, pyGetattr, pySetattr, sget, muvTruthy] at h
            split at h <;>
              · injection h with h2
                subst h2
                rfl
    · -- 0 < len false: contradicts the nonemptiness test `if uvs:`
      simp [except_bind_ok, except_pure, pyGetattr, pySetattr, sget, muvTruthy] at h
      split at h
      · cases hc1 : uvChannel
          (make_verts obj.data (make_tris obj.data (build_submeshes obj.data))).1.uvs 1 with
        | error e =>
            rw [hc1] at h
            simp [except_bind_err] at h
        | ok c1 =>
            rw [hc1] at h
            simp [except_bind_ok, except_bind_err] at h
      · simp [except_bind_err] at h
  · -- uvs empty: `mumesh.uvs` was never assigned, so `if mumesh.uvs:` raises
    simp [except_bind_ok, except_pure, pyGetattr, pySetattr, sget] at h
    simp [except_bind_err] at h

theorem mesh_bones_store_no_groups (vgs : List BVertGroup) (mm : Store)
    (arm : List BBone) (h : sget mm "groups" = none) :
    mesh_bones_store vgs mm arm = .error "AttributeError: no attribute groups" := by
  unfold mesh_bones_store pyGetattr
  rw [h]
  rfl

/-- Claim C6: `make_mesh` assigns the deduplicated per-vertex bone-group
reference list to an attribute of its INPUT mesh object (`mesh.groups`, the
fourth target of the unpacking on line 143), mutating it; the returned
`MuMesh` store carries no `groups` attribute, so the read by `mesh_bones` of
`mumesh.groups` accesses data the pipeline never stored on its output and
raises `AttributeError`. -/
theorem c6_groups_misassigned (mu : Mu) (obj : BObj) (vgs : List BVertGroup)
    (arm : List BBone) :
    sget (make_mesh mu obj).1 "groups" =
      some (.vGroups
        (make_verts obj.data (make_tris obj.data (build_submeshes obj.data))).1.groups) ∧
    (∀ mm, (make_mesh mu obj).2 = .ok mm →
      sget mm "groups" = none ∧
      mesh_bones_store vgs mm arm = .error "AttributeError: no attribute groups") := by
  refine ⟨rfl, fun mm h => ?_⟩
  have hg := make_mesh_ok_no_groups mu obj mm h
  exact ⟨hg, mesh_bones_store_no_groups vgs mm arm hg⟩

/-- Witness for C6 at a concrete two-UV-layer mesh on which `make_mesh`
completes: the input mesh store gains `groups`, the returned `MuMesh` store
has none, and `mesh_bones` on that output raises `AttributeError`. -/
theorem c6_groups_misassigned_witness :
    (make_mesh ⟨[]⟩ cObj2).2 = .ok (okD (make_mesh ⟨[]⟩ cObj2).2 []) ∧
    sget (make_mesh ⟨[]⟩ cObj2).1 "groups" =
      some (.vGroups
        (make_verts cObj2.data
          (make_tris cObj2.data (build_submeshes cObj2.data))).1.groups) ∧
    sget (okD (make_mesh ⟨[]⟩ cObj2).2 []) "groups" = none ∧
    mesh_bones_store [⟨"A"⟩] (okD (make_mesh ⟨[]⟩ cObj2).2 []) [⟨"A"⟩] =
      .error "AttributeError: no attribute groups" := by
  have hok : (make_mesh ⟨[]⟩ cObj2).2 = .ok (okD (make_mesh ⟨[]⟩ cObj2).2 []) := rfl
  refine ⟨hok, (c6_groups_misassigned ⟨[]⟩ cObj2 [⟨"A"⟩] [⟨"A"⟩]).1, ?_, ?_⟩
  · exact ((c6_groups_misassigned ⟨[]⟩ cObj2 [⟨"A"⟩] [⟨"A"⟩]).2 _ hok).1
  · exact ((c6_groups_misassigned ⟨[]⟩ cObj2 [⟨"A"⟩] [⟨"A"⟩]).2 _ hok).2
